import Mathlib

/-!
Shallow embedding of the tab-switcher ("harpoon") state machine from
`crates/harpoon/src/harpoon.rs`, together with theorems checking the
natural-language specification against it.

Modelling conventions:
* Items (tabs/documents) are opaque handles, identified by a natural number.
* A pane is modelled by its ordered tab strip plus the index and mode of its
  active item; `activate_item(index, permanent, focus)` is the capability
  interface of the external `Pane` collaborator (the `focus` flag has no
  effect on the modelled state).
* `WeakEntity<Pane>` is a pane id resolved against a workspace table in which
  a destroyed pane is `none`; `WeakEntity::update(..).ok()` becomes
  `updatePane`, a no-op on a dead pane.
* `Entity<Pane>` (the strong references held in `original_items`) is also a
  pane id; a strong reference is always live, so applying `updatePane` to it
  coincides with the source's infallible `Entity::update`.
* GUI-only concerns (focus, rendering glue, `cx.notify`) are out of scope;
  `cx.emit(DismissEvent)` is modelled by a boolean in the dismiss result.
-/

namespace Harpoon

/-- Identity of an opaque item handle (`Box<dyn ItemHandle>` compared by
item identity). -/
abbrev ItemId := Nat

/-- Identity of a pane entity; both weak and strong pane references are
pane ids, resolved against the workspace table. -/
abbrev PaneId := Nat

/-- The state of one live pane: its tab strip (item ids in order), the index
of its active item, and whether that activation was permanent (committed)
rather than a preview. -/
structure PaneState where
  items : List ItemId
  activeIndex : Nat
  activePermanent : Bool
deriving Repr, DecidableEq

/-- `Pane::index_for_item`: position of an item in the pane's tab strip,
`none` when the pane no longer contains it. -/
def PaneState.indexForItem (p : PaneState) (item : ItemId) : Option Nat :=
  p.items.findIdx? (· = item)

/-- `Pane::activate_item(index, permanent, focus)`: make the item at `index`
the pane's active item; `permanent` records whether the activation commits
the tab or merely previews it.  Focus does not affect the modelled state. -/
def PaneState.activateItem (p : PaneState) (index : Nat) (permanent : Bool)
    (_focus : Bool) : PaneState :=
  { p with activeIndex := index, activePermanent := permanent }

/-- `Pane::close_item(index)`: remove the item at `index` from the pane's
tab strip. -/
def PaneState.closeItem (p : PaneState) (index : Nat) : PaneState :=
  { p with items := p.items.eraseIdx index }

/-- The workspace: a table from pane id to pane state, `none` for a pane that
has been destroyed by unrelated workspace activity. -/
abbrev WorkspaceState := List (Option PaneState)

/-- Resolve a (weak) pane reference: `some` exactly when the pane is live. -/
def getPane (ws : WorkspaceState) (pid : PaneId) : Option PaneState :=
  (ws[pid]?).getD none

/-- Replace the state of pane `pid` (no-op when `pid` is out of the table). -/
def setPane (ws : WorkspaceState) (pid : PaneId) (p : PaneState) :
    WorkspaceState :=
  ws.set pid (some p)

/-- `WeakEntity::<Pane>::update(cx, f).ok()`: run `f` on the pane when the
reference is live, silently do nothing when it is stale.  A strong
`Entity<Pane>` reference is always live, so this also models the infallible
`Entity::update` used for `original_items`. -/
def updatePane (ws : WorkspaceState) (pid : PaneId)
    (f : PaneState → PaneState) : WorkspaceState :=
  match getPane ws pid with
  | none => ws
  | some p => setPane ws pid (f p)

/-- `TabMatch` from `harpoon.rs`: one candidate row of the picker. -/
structure TabMatch where
  pane : PaneId
  item_index : Nat
  item : ItemId
  detail : Nat
  preview : Bool
deriving Repr, DecidableEq

/-- `HarpoonDelegate` from `harpoon.rs`.  The fields `pane`, `workspace` and
`project` of the source struct are only used by rendering glue and by the
(absent) snapshot constructor, so they are not part of the modelled state;
`harpoonAlive` records whether the weak `harpoon: WeakEntity<Harpoon>`
back-reference still resolves. -/
structure HarpoonDelegate where
  select_last : Bool
  harpoonAlive : Bool
  selected_index : Nat
  «matches» : List TabMatch
  original_items : List (PaneId × Nat)
  is_all_panes : Bool
  restored_items : Bool
deriving Repr, DecidableEq

/-- `HarpoonDelegate::set_selected_index` (harpoon.rs lines 82–102): store the
new index unconditionally, then — if a match exists at that index — activate
it in its (weak) pane in preview mode (`activate_item(index, false, false)`),
skipping the activation when the pane is stale or no longer holds the item. -/
def setSelectedIndex (d : HarpoonDelegate) (ws : WorkspaceState) (ix : Nat) :
    HarpoonDelegate × WorkspaceState :=
  let d1 := { d with selected_index := ix }
  match d1.«matches»[d1.selected_index]? with
  | none => (d1, ws)
  | some selectedMatch =>
    let ws1 := updatePane ws selectedMatch.pane (fun pane =>
      match pane.indexForItem selectedMatch.item with
      | some index => pane.activateItem index false false
      | none => pane)
    (d1, ws1)

/-- The loop `for (pane, index) in self.original_items` shared by `confirm`
and `dismissed`: activate, in every recorded pane, the recorded pre-popup
item index, non-permanently (`activate_item(*index, false, false)`). -/
def restoreOriginals (items : List (PaneId × Nat)) (ws : WorkspaceState) :
    WorkspaceState :=
  items.foldl
    (fun acc pi => updatePane acc pi.1 (fun p => p.activateItem pi.2 false false))
    ws

/-- The tail of `confirm`: activate the selected match permanently
(`activate_item(index, true, true)`) in its weak pane, skipping when the pane
is stale or the item is gone. -/
def confirmActivate (m : TabMatch) (ws : WorkspaceState) : WorkspaceState :=
  updatePane ws m.pane (fun pane =>
    match pane.indexForItem m.item with
    | some index => pane.activateItem index true true
    | none => pane)

/-- `HarpoonDelegate::confirm` (harpoon.rs lines 118–142): no-op when no match
is selected; otherwise set `restored_items`, restore every original item
non-permanently, then activate the selected match permanently. -/
def confirm (d : HarpoonDelegate) (ws : WorkspaceState) :
    HarpoonDelegate × WorkspaceState :=
  match d.«matches»[d.selected_index]? with
  | none => (d, ws)
  | some selectedMatch =>
    let d1 := { d with restored_items := true }
    let ws1 := restoreOriginals d.original_items ws
    (d1, confirmActivate selectedMatch ws1)

/-- Result of `dismissed`: the delegate, the workspace, and whether
`DismissEvent` was emitted to the hosting `Harpoon` entity. -/
structure DismissResult where
  delegate : HarpoonDelegate
  workspace : WorkspaceState
  emittedDismiss : Bool
deriving Repr, DecidableEq

/-- `HarpoonDelegate::dismissed` (harpoon.rs lines 144–156): restore the
original items unless `restored_items` is already set, then emit
`DismissEvent` through the weak `harpoon` back-reference (the emission
succeeds exactly when that reference is live; failure is only logged). -/
def dismissed (d : HarpoonDelegate) (ws : WorkspaceState) : DismissResult :=
  let ws1 := if d.restored_items then ws else restoreOriginals d.original_items ws
  { delegate := d, workspace := ws1, emittedDismiss := d.harpoonAlive }

/-- The data of one rendered picker row that depends on the delegate state
(harpoon.rs lines 158–227): `TabContentParams` fields and which slot shows
the close affordance. -/
structure RenderedRow where
  detail : Option Nat
  selectedContent : Bool
  preview : Bool
  rowIndex : Nat
  toggled : Bool
  closeAlwaysVisible : Bool
deriving Repr, DecidableEq

/-- `HarpoonDelegate::render_match` (harpoon.rs lines 158–227): `none` when
`ix` has no match (`self.matches.get(ix)?`), otherwise a row built from the
match's `detail` and `preview`, with `TabContentParams.selected = true`, and
the close button always visible exactly when `ix` is the selected index. -/
def renderMatch (d : HarpoonDelegate) (ix : Nat) (selected : Bool) :
    Option RenderedRow :=
  match d.«matches»[ix]? with
  | none => none
  | some tabMatch =>
    some { detail := some tabMatch.detail
           selectedContent := true
           preview := tabMatch.preview
           rowIndex := ix
           toggled := selected
           closeAlwaysVisible := d.selected_index == ix }

/-- Outcome of one toggle action dispatch in `Harpoon::register`
(harpoon.rs lines 235–264). -/
inductive ToggleOutcome where
  | opened (selectLast : Bool) (allPanes : Bool)
  | cycled
deriving Repr, DecidableEq

/-- The `Toggle` action handler registered in `Harpoon::register`
(harpoon.rs lines 240–251): when no `Harpoon` modal is active, open one with
`Self::open(workspace, action.select_last, false, ..)`; otherwise cycle the
existing picker's selection. -/
def handleToggle (modalActive : Bool) (selectLast : Bool) : ToggleOutcome :=
  if modalActive then ToggleOutcome.cycled
  else ToggleOutcome.opened selectLast false

/-- The `ToggleAll` action handler registered in `Harpoon::register`
(harpoon.rs lines 252–263): when no `Harpoon` modal is active, open one with
`Self::open(workspace, false, true, ..)`; otherwise cycle the existing
picker's selection. -/
def handleToggleAll (modalActive : Bool) : ToggleOutcome :=
  if modalActive then ToggleOutcome.cycled
  else ToggleOutcome.opened false true

/-- Modelled from the spec: `HarpoonDelegate::close_item_at` is invoked from
the close affordance of a rendered row (harpoon.rs lines 194–207) but its
body is not among the sources.  Following spec §4.5 and §7: an out-of-range
index is rejected with a no-op; at a valid index, close the item in its
owning pane when that pane is live and still contains it (a stale pane
reference is a silent no-op on the pane side), remove the corresponding
`TabMatch` from the match list (shifting later indices down by one), and
clamp `selected_index` when it now exceeds the new list length. -/
def closeItemAt (d : HarpoonDelegate) (ws : WorkspaceState) (ix : Nat) :
    HarpoonDelegate × WorkspaceState :=
  match d.«matches»[ix]? with
  | none => (d, ws)
  | some m =>
    let ws1 := updatePane ws m.pane (fun pane =>
      match pane.indexForItem m.item with
      | some index => pane.closeItem index
      | none => pane)
    let newMatches := d.«matches».eraseIdx ix
    let newSelected := min d.selected_index (newMatches.length - 1)
    ({ d with «matches» := newMatches, selected_index := newSelected }, ws1)

/-- One terminal-action call on the popup: `confirm` or `dismissed`. -/
inductive PopupOp where
  | confirmOp
  | dismissOp
deriving Repr, DecidableEq

/-- Whether a single `confirm` call executes the restore-all-panes loop:
it does exactly when a match is selected (harpoon.rs lines 124–133;
otherwise `confirm` returns early). -/
def confirmRunsRestore (d : HarpoonDelegate) : Bool :=
  (d.«matches»[d.selected_index]?).isSome

/-- Whether a single `dismissed` call executes the restore-all-panes loop:
it does exactly when `restored_items` is still false (harpoon.rs
lines 145–151). -/
def dismissRunsRestore (d : HarpoonDelegate) : Bool :=
  !d.restored_items

/-- Run a sequence of `confirm`/`dismissed` calls on a popup instance,
counting how many of the calls execute the restore-all-panes loop. -/
def runOps (ops : List PopupOp) (d : HarpoonDelegate) (ws : WorkspaceState) :
    HarpoonDelegate × WorkspaceState × Nat :=
  match ops with
  | [] => (d, ws, 0)
  | PopupOp.confirmOp :: rest =>
    let r := confirm d ws
    let rr := runOps rest r.1 r.2
    (rr.1, rr.2.1, (if confirmRunsRestore d then 1 else 0) + rr.2.2)
  | PopupOp.dismissOp :: rest =>
    let r := dismissed d ws
    let rr := runOps rest r.delegate r.workspace
    (rr.1, rr.2.1, (if dismissRunsRestore d then 1 else 0) + rr.2.2)

/-- One scored candidate of the `update_matches` recomputation: its position
in the baseline snapshot, its accepted fuzzy score, and the match itself. -/
structure Scored where
  idx : Nat
  score : Nat
  tm : TabMatch
deriving Repr, DecidableEq

/-- Candidate order produced by the recomputation: higher score first, ties
broken by the stable baseline (snapshot) position. -/
def scoreOrder (a b : Scored) : Prop :=
  b.score < a.score ∨ (a.score = b.score ∧ a.idx ≤ b.idx)

instance : DecidableRel scoreOrder := fun a b => by
  unfold scoreOrder
  exact inferInstance

instance : IsTotal Scored scoreOrder where
  total a b := by
    unfold scoreOrder
    omega

instance : IsTrans Scored scoreOrder where
  trans a b c hab hbc := by
    unfold scoreOrder at hab hbc ⊢
    omega

/-- Modelled from the spec: the scoring pass of the inherent
`HarpoonDelegate::update_matches` (called at harpoon.rs line 114, body not
among the sources).  Per spec §4.2, every baseline candidate's renderable
label is scored against the query by the external fuzzy matcher and only
candidates with an accepted (`some`) score are retained, keeping their
baseline position for stable tie-breaking. -/
def scoreCandidates (fuzzy : String → String → Option Nat)
    (label : TabMatch → String) (query : String) (baseline : List TabMatch) :
    List Scored :=
  baseline.enum.filterMap (fun p =>
    (fuzzy (label p.2) query).map (fun s => { idx := p.1, score := s, tm := p.2 }))

/-- Modelled from the spec: the inherent `HarpoonDelegate::update_matches`
(called at harpoon.rs line 114, body not among the sources).  Per spec §4.2:
an empty query uses the baseline snapshot ordering verbatim without
re-scoring; a non-empty query retains exactly the accepted candidates,
ordered by descending score with ties broken by the stable baseline order;
the recomputation fully replaces the match list and clamps `selected_index`
into range (0 when the new list is non-empty; 0 is also the representative
of the undefined selection of an empty list). -/
def updateMatches (fuzzy : String → String → Option Nat)
    (label : TabMatch → String) (baseline : List TabMatch) (query : String)
    (d : HarpoonDelegate) : HarpoonDelegate :=
  if query = "" then
    { d with «matches» := baseline, selected_index := 0 }
  else
    let ranked := List.insertionSort scoreOrder (scoreCandidates fuzzy label query baseline)
    { d with «matches» := ranked.map Scored.tm, selected_index := 0 }

/-- Sample pane 0: three tabs, tab 10 active (committed). -/
def samplePaneA : PaneState :=
  { items := [10, 11, 12], activeIndex := 0, activePermanent := true }

/-- Sample pane 1: two tabs, tab 21 active (committed). -/
def samplePaneB : PaneState :=
  { items := [20, 21], activeIndex := 1, activePermanent := true }

/-- Sample workspace: panes 0 and 1 live. -/
def sampleWs : WorkspaceState := [some samplePaneA, some samplePaneB]

/-- Sample match row for item 10 in pane 0. -/
def sampleMatch0 : TabMatch :=
  { pane := 0, item_index := 0, item := 10, detail := 0, preview := false }

/-- Sample match row for item 12 in pane 0. -/
def sampleMatch1 : TabMatch :=
  { pane := 0, item_index := 2, item := 12, detail := 0, preview := true }

/-- Sample match row for item 21 in pane 1. -/
def sampleMatch2 : TabMatch :=
  { pane := 1, item_index := 1, item := 21, detail := 1, preview := false }

/-- Sample delegate over `sampleWs`, with the row of item 12 selected and the
pre-popup active tabs of both panes on record. -/
def sampleDelegate : HarpoonDelegate :=
  { select_last := false
    harpoonAlive := true
    selected_index := 1
    «matches» := [sampleMatch0, sampleMatch1, sampleMatch2]
    original_items := [(0, 0), (1, 1)]
    is_all_panes := true
    restored_items := false }

/-- Sample labelling of the sample matches (the external
`render_label`/`tab_content` collaborator). -/
def sampleLabel : TabMatch → String := fun tm =>
  if tm.item = 10 then "alpha" else if tm.item = 12 then "beta" else "gamma"

/-- Sample fuzzy matcher: accepts exact label matches only. -/
def sampleFuzzy : String → String → Option Nat := fun l q =>
  if l = q then some 1 else none

/-- A live pane reference is in bounds of the workspace table. -/
theorem getPane_lt_length {ws : WorkspaceState} {pid : PaneId} {p : PaneState}
    (h : getPane ws pid = some p) : pid < ws.length := by
  rcases Nat.lt_or_ge pid ws.length with hlt | hge
  · exact hlt
  · rw [getPane, List.getElem?_eq_none hge] at h
    simp at h

/-- A live pane reference reads back as `some (some _)` from the table. -/
theorem getElem?_of_getPane {ws : WorkspaceState} {pid : PaneId} {p : PaneState}
    (h : getPane ws pid = some p) : ws[pid]? = some (some p) := by
  rw [getPane] at h
  cases hw : ws[pid]? with
  | none => rw [hw] at h; simp at h
  | some o => rw [hw] at h; simp at h; rw [h]

/-- Reading the pane just written. -/
theorem getPane_setPane_self {ws : WorkspaceState} {pid : PaneId}
    {p q : PaneState} (h : getPane ws pid = some p) :
    getPane (setPane ws pid q) pid = some q := by
  have hlt := getPane_lt_length h
  rw [getPane, setPane, List.getElem?_set_self hlt]
  rfl

/-- Writing one pane leaves every other pane's state unchanged. -/
theorem getPane_setPane_ne {ws : WorkspaceState} {pid pid' : PaneId}
    {q : PaneState} (h : pid' ≠ pid) :
    getPane (setPane ws pid q) pid' = getPane ws pid' := by
  rw [getPane, setPane, List.getElem?_set_ne (fun he => h he.symm)]
  rfl

/-- Writing a pane's current state back is the identity on the workspace. -/
theorem setPane_getPane_self {ws : WorkspaceState} {pid : PaneId}
    {p : PaneState} (h : getPane ws pid = some p) : setPane ws pid p = ws := by
  apply List.ext_getElem?
  intro j
  by_cases hj : j = pid
  · subst hj
    rw [setPane, List.getElem?_set_self (getPane_lt_length h),
      getElem?_of_getPane h]
  · rw [setPane, List.getElem?_set_ne (fun he => hj he.symm)]

/-- Effect of a weak-reference update on the pane itself. -/
theorem getPane_updatePane_self (ws : WorkspaceState) (pid : PaneId)
    (f : PaneState → PaneState) :
    getPane (updatePane ws pid f) pid = (getPane ws pid).map f := by
  unfold updatePane
  cases h : getPane ws pid with
  | none => simp [h]
  | some p => rw [getPane_setPane_self h]; rfl

/-- A weak-reference update leaves every other pane unchanged. -/
theorem getPane_updatePane_ne (ws : WorkspaceState) (pid pid' : PaneId)
    (f : PaneState → PaneState) (h : pid' ≠ pid) :
    getPane (updatePane ws pid f) pid' = getPane ws pid' := by
  unfold updatePane
  cases getPane ws pid with
  | none => rfl
  | some p => exact getPane_setPane_ne h

/-- A weak-reference update against a stale pane is a no-op. -/
theorem updatePane_stale {ws : WorkspaceState} {pid : PaneId}
    (f : PaneState → PaneState) (h : getPane ws pid = none) :
    updatePane ws pid f = ws := by
  unfold updatePane
  rw [h]

theorem restoreOriginals_nil (ws : WorkspaceState) :
    restoreOriginals [] ws = ws := rfl

theorem restoreOriginals_cons (pi : PaneId × Nat) (items : List (PaneId × Nat))
    (ws : WorkspaceState) :
    restoreOriginals (pi :: items) ws =
      restoreOriginals items
        (updatePane ws pi.1 (fun p => p.activateItem pi.2 false false)) := rfl

/-- The restore loop leaves panes outside the original-items record alone. -/
theorem getPane_restoreOriginals_notMem (items : List (PaneId × Nat))
    (ws : WorkspaceState) (pid : PaneId) (h : pid ∉ items.map Prod.fst) :
    getPane (restoreOriginals items ws) pid = getPane ws pid := by
  induction items generalizing ws with
  | nil => rfl
  | cons pi rest ih =>
    rw [List.map_cons, List.mem_cons, not_or] at h
    rw [restoreOriginals_cons, ih _ h.2,
      getPane_updatePane_ne _ _ _ _ h.1]

/-- The restore loop re-activates, in every recorded pane, the recorded
pre-popup item index, non-permanently (when pane ids are not repeated in the
record). -/
theorem getPane_restoreOriginals_mem (items : List (PaneId × Nat))
    (ws : WorkspaceState) (pid : PaneId) (idx : Nat)
    (hnd : (items.map Prod.fst).Nodup) (hmem : (pid, idx) ∈ items) :
    getPane (restoreOriginals items ws) pid =
      (getPane ws pid).map (fun p => p.activateItem idx false false) := by
  induction items generalizing ws with
  | nil => cases hmem
  | cons pi rest ih =>
    rw [List.map_cons, List.nodup_cons] at hnd
    rw [restoreOriginals_cons]
    rcases List.mem_cons.mp hmem with heq | hmem'
    · have hpid : pi.1 = pid := by rw [← heq]
      have hidx : pi.2 = idx := by rw [← heq]
      have hnot : pid ∉ rest.map Prod.fst := by rw [← hpid]; exact hnd.1
      rw [getPane_restoreOriginals_notMem _ _ _ hnot, ← hpid, ← hidx,
        getPane_updatePane_self]
    · have hmemf : pid ∈ rest.map Prod.fst :=
        List.mem_map.mpr ⟨(pid, idx), hmem', rfl⟩
      have hne : pid ≠ pi.1 := fun he => hnd.1 (he ▸ hmemf)
      rw [ih _ hnd.2 hmem', getPane_updatePane_ne _ _ _ _ hne]

/-- C8: for both toggle actions (current-pane scope and all-panes scope),
invoking the action while the popup modal is not open opens it (with the
action's scope arguments), and invoking it while the modal is already open
cycles the picker's selection instead of opening a new popup instance. -/
theorem toggle_opens_when_closed_cycles_when_open (selectLast : Bool) :
    handleToggle false selectLast = ToggleOutcome.opened selectLast false ∧
    handleToggle true selectLast = ToggleOutcome.cycled ∧
    handleToggleAll false = ToggleOutcome.opened false true ∧
    handleToggleAll true = ToggleOutcome.cycled :=
  ⟨rfl, rfl, rfl, rfl⟩

/-- C9: `dismissed` emits `DismissEvent` to the hosting `Harpoon` entity
exactly when that (weak) host reference is live, and the emission does not
depend on the `restored_items` flag in any way: the flag gates only the
restoration of original items, so a dismiss after a confirm still signals
the host. -/
theorem dismissed_always_signals_host (d : HarpoonDelegate)
    (ws : WorkspaceState) :
    (dismissed d ws).emittedDismiss = d.harpoonAlive ∧
    ∀ b : Bool,
      (dismissed { d with restored_items := b } ws).emittedDismiss =
        (dismissed d ws).emittedDismiss :=
  ⟨rfl, fun _ => rfl⟩

/-- C10: `render_match` is total over all indices — it returns a row exactly
when `ix` is a valid index into the current match list and `none` otherwise,
and the row it builds for a valid index is derived from that `TabMatch`'s
detail level and preview flag (with `TabContentParams.selected = true` and
the close button pinned to the row of the selected index). -/
theorem render_match_total (d : HarpoonDelegate) (ix : Nat) (selected : Bool) :
    (renderMatch d ix selected).isSome = decide (ix < d.«matches».length) ∧
    ∀ tm, d.«matches»[ix]? = some tm →
      renderMatch d ix selected =
        some { detail := some tm.detail
               selectedContent := true
               preview := tm.preview
               rowIndex := ix
               toggled := selected
               closeAlwaysVisible := d.selected_index == ix } := by
  constructor
  · unfold renderMatch
    cases h : d.«matches»[ix]? with
    | none =>
      have hlen : d.«matches».length ≤ ix := List.getElem?_eq_none_iff.mp h
      simp [hlen, Nat.not_lt.mpr hlen]
    | some tm =>
      have hlt : ix < d.«matches».length :=
        List.getElem?_eq_some_iff.mp h |>.1
      simp [hlt]
  · intro tm htm
    unfold renderMatch
    rw [htm]

/-- C10 witness: the row rendered for the sample delegate's selected index. -/
theorem render_match_total_witness :
    renderMatch sampleDelegate 1 true =
      some { detail := some 0
             selectedContent := true
             preview := true
             rowIndex := 1
             toggled := true
             closeAlwaysVisible := true } :=
  (render_match_total sampleDelegate 1 true).2 sampleMatch1 (by decide)

/-- C6 counterexample: `set_selected_index` called with index 5 on a delegate
whose match list has length 3 does not leave the delegate unchanged — it
stores the out-of-range index 5 in `selected_index`, violating the claimed
validity invariant. -/
theorem set_selected_index_out_of_range_mutates_state :
    (setSelectedIndex sampleDelegate sampleWs 5).1 ≠ sampleDelegate ∧
    (setSelectedIndex sampleDelegate sampleWs 5).1.selected_index = 5 ∧
    sampleDelegate.«matches».length = 3 := by
  decide

/-- C6 amended: `set_selected_index` with an out-of-range index performs no
activation (the workspace is unchanged) and changes no delegate field other
than `selected_index`, but it does store the out-of-range index, so the
selected-index validity invariant does not survive such a call. -/
theorem set_selected_index_out_of_range_no_activation
    (d : HarpoonDelegate) (ws : WorkspaceState) (ix : Nat)
    (hix : d.«matches».length ≤ ix) :
    (setSelectedIndex d ws ix).2 = ws ∧
    (setSelectedIndex d ws ix).1 = { d with selected_index := ix } := by
  have hnone : d.«matches»[ix]? = none := List.getElem?_eq_none hix
  simp [setSelectedIndex, hnone]

/-- C6 amended witness: out-of-range index 5 on the sample delegate. -/
theorem set_selected_index_out_of_range_no_activation_witness :
    (setSelectedIndex sampleDelegate sampleWs 5).2 = sampleWs ∧
    (setSelectedIndex sampleDelegate sampleWs 5).1 =
      { sampleDelegate with selected_index := 5 } :=
  set_selected_index_out_of_range_no_activation sampleDelegate sampleWs 5
    (by decide)

/-- C3 counterexample: calling `dismissed` twice on the sample popup state
executes the restore-all-panes loop twice, not at most once — `dismissed`
never sets `restored_items`, so the second call restores again. -/
theorem double_dismiss_restores_twice :
    (runOps [PopupOp.dismissOp, PopupOp.dismissOp]
      sampleDelegate sampleWs).2.2 = 2 ∧
    (dismissed sampleDelegate sampleWs).delegate.restored_items = false := by
  decide

/-- C3 amended: the `restored_items` flag guards only the dismiss path after
a confirm — `confirm` sets the flag, so confirm followed by dismiss performs
the restore-all-panes loop at most once; but `dismissed` itself never sets
the flag, so calling dismiss twice performs the restoration twice (once per
call). -/
theorem confirm_then_dismiss_restores_at_most_once
    (d : HarpoonDelegate) (ws : WorkspaceState) (h : d.restored_items = false) :
    (runOps [PopupOp.confirmOp, PopupOp.dismissOp] d ws).2.2 ≤ 1 ∧
    (runOps [PopupOp.dismissOp, PopupOp.dismissOp] d ws).2.2 = 2 := by
  constructor
  · cases hm : d.«matches»[d.selected_index]? with
    | none =>
      simp [runOps, confirm, dismissed, confirmRunsRestore, dismissRunsRestore,
        hm, h]
    | some m =>
      simp [runOps, confirm, dismissed, confirmRunsRestore, dismissRunsRestore,
        hm, h]
  · simp [runOps, dismissed, dismissRunsRestore, h]

/-- C1: `confirm` with no selected match (out-of-range selection or empty
match list) is a no-op; otherwise it sets `restored_items`, activates, for
every (pane, index) pair of the original-items record, that index
non-permanently (preview mode), then activates the confirmed tab in its
owning pane permanently — skipping that permanent activation when the pane
is stale or no longer holds the item. -/
theorem confirm_restores_then_activates_selected
    (d : HarpoonDelegate) (ws : WorkspaceState) :
    (d.«matches»[d.selected_index]? = none → confirm d ws = (d, ws)) ∧
    ∀ m, d.«matches»[d.selected_index]? = some m →
      (confirm d ws).1 = { d with restored_items := true } ∧
      (confirm d ws).2 =
        confirmActivate m (restoreOriginals d.original_items ws) ∧
      ((d.original_items.map Prod.fst).Nodup →
        ∀ pid idx, (pid, idx) ∈ d.original_items → pid ≠ m.pane →
          getPane (confirm d ws).2 pid =
            (getPane ws pid).map (fun p => p.activateItem idx false false)) ∧
      (∀ p i,
          getPane (restoreOriginals d.original_items ws) m.pane = some p →
          p.indexForItem m.item = some i →
          getPane (confirm d ws).2 m.pane = some (p.activateItem i true true)) ∧
      (getPane (restoreOriginals d.original_items ws) m.pane = none →
        (confirm d ws).2 = restoreOriginals d.original_items ws) := by
  cases h : d.«matches»[d.selected_index]? with
  | none =>
    refine ⟨fun _ => ?_, fun m hm => ?_⟩
    · simp [confirm, h]
    · cases hm
  | some m0 =>
    refine ⟨fun hn => (nomatch hn), fun m hm => ?_⟩
    injection hm with hm
    subst hm
    have h2 : (confirm d ws).2 =
        confirmActivate m0 (restoreOriginals d.original_items ws) := by
      simp [confirm, h]
    refine ⟨by simp [confirm, h], h2, ?_, ?_, ?_⟩
    · intro hnd pid idx hmem hne
      rw [h2, confirmActivate, getPane_updatePane_ne _ _ _ _ hne,
        getPane_restoreOriginals_mem _ _ _ _ hnd hmem]
    · intro p i hp hi
      rw [h2, confirmActivate, getPane_updatePane_self, hp]
      simp [hi]
    · intro hp
      rw [h2, confirmActivate, updatePane_stale _ hp]

/-- C1 witness: confirming item 12 in the sample popup leaves item 12 active
permanently in pane 0 and pane 1 restored to its pre-popup tab. -/
theorem confirm_restores_then_activates_selected_witness :
    (confirm sampleDelegate sampleWs).1 =
      { sampleDelegate with restored_items := true } ∧
    getPane (confirm sampleDelegate sampleWs).2 0 =
      some { items := [10, 11, 12], activeIndex := 2, activePermanent := true } ∧
    getPane (confirm sampleDelegate sampleWs).2 1 =
      some { items := [20, 21], activeIndex := 1, activePermanent := false } := by
  have h := (confirm_restores_then_activates_selected sampleDelegate sampleWs).2
    sampleMatch1 (by decide)
  refine ⟨h.1, ?_, ?_⟩
  · exact h.2.2.2.1
      { items := [10, 11, 12], activeIndex := 0, activePermanent := false } 2
      (by decide) (by decide)
  · have h3 := h.2.2.1 (by decide) 1 1 (by decide) (by decide)
    rw [h3]
    decide

/-- C2: when `restored_items` is already set (confirm already ran),
`dismissed` leaves the workspace untouched; otherwise it restores every pane
of the original-items record to its recorded pre-popup active tab
(non-permanently, and independently of whatever preview activations the
quantified intermediate workspace state contains); in both cases it then
signals dismissal to the hosting container (whenever the host reference is
live) and leaves the delegate unchanged. -/
theorem dismissed_restores_unless_already_restored
    (d : HarpoonDelegate) (ws : WorkspaceState) :
    (d.restored_items = true → (dismissed d ws).workspace = ws) ∧
    (d.restored_items = false →
      (dismissed d ws).workspace = restoreOriginals d.original_items ws ∧
      ((d.original_items.map Prod.fst).Nodup →
        ∀ pid idx, (pid, idx) ∈ d.original_items →
          getPane (dismissed d ws).workspace pid =
            (getPane ws pid).map (fun p => p.activateItem idx false false))) ∧
    (dismissed d ws).emittedDismiss = d.harpoonAlive ∧
    (dismissed d ws).delegate = d := by
  refine ⟨fun h => by simp [dismissed, h], fun h => ?_, rfl, rfl⟩
  have hw : (dismissed d ws).workspace =
      restoreOriginals d.original_items ws := by
    simp [dismissed, h]
  refine ⟨hw, fun hnd pid idx hmem => ?_⟩
  rw [hw, getPane_restoreOriginals_mem _ _ _ _ hnd hmem]

/-- C2 witness: dismissing the sample popup without a prior confirm restores
pane 0 to its pre-popup tab and signals the host. -/
theorem dismissed_restores_unless_already_restored_witness :
    (dismissed sampleDelegate sampleWs).workspace =
      restoreOriginals sampleDelegate.original_items sampleWs ∧
    getPane (dismissed sampleDelegate sampleWs).workspace 0 =
      some { items := [10, 11, 12], activeIndex := 0, activePermanent := false } ∧
    (dismissed sampleDelegate sampleWs).emittedDismiss = true := by
  have h := dismissed_restores_unless_already_restored sampleDelegate sampleWs
  have h2 := h.2.1 (by decide)
  refine ⟨h2.1, ?_, h.2.2.1⟩
  have h3 := h2.2 (by decide) 0 0 (by decide)
  rw [h3]
  decide

/-- C4: for every valid index into the current match list,
`set_selected_index` stores the index (mutating no other delegate field, in
particular not the original-items record); when the match's pane is live and
still contains the item it activates that tab in preview mode (non-permanent,
no focus); when the pane is stale, or the item is gone from it, no activation
occurs. -/
theorem set_selected_index_previews_selected
    (d : HarpoonDelegate) (ws : WorkspaceState) (ix : Nat)
    (hix : ix < d.«matches».length) :
    (setSelectedIndex d ws ix).1 = { d with selected_index := ix } ∧
    ∀ m, d.«matches»[ix]? = some m →
      ((getPane ws m.pane = none → (setSelectedIndex d ws ix).2 = ws) ∧
       (∀ p, getPane ws m.pane = some p → p.indexForItem m.item = none →
          (setSelectedIndex d ws ix).2 = ws) ∧
       (∀ p i, getPane ws m.pane = some p → p.indexForItem m.item = some i →
          (setSelectedIndex d ws ix).2 =
            setPane ws m.pane (p.activateItem i false false))) := by
  cases h : d.«matches»[ix]? with
  | none =>
    exact absurd (List.getElem?_eq_none_iff.mp h) (Nat.not_le.mpr hix)
  | some m0 =>
    have h2core : (setSelectedIndex d ws ix).2 =
        updatePane ws m0.pane (fun pane =>
          match pane.indexForItem m0.item with
          | some index => pane.activateItem index false false
          | none => pane) := by
      simp [setSelectedIndex, h]
    refine ⟨by simp [setSelectedIndex, h], fun m hm => ?_⟩
    injection hm with hm
    subst hm
    refine ⟨fun hstale => ?_, fun p hp hno => ?_, fun p i hp hi => ?_⟩
    · rw [h2core, updatePane_stale _ hstale]
    · rw [h2core]
      unfold updatePane
      rw [hp]
      simp only [hno]
      exact setPane_getPane_self hp
    · rw [h2core]
      unfold updatePane
      rw [hp]
      simp [hi]

/-- C4 witness: selecting index 2 of the sample popup previews item 21 in
pane 1 without touching the delegate's original-items record. -/
theorem set_selected_index_previews_selected_witness :
    (setSelectedIndex sampleDelegate sampleWs 2).1 =
      { sampleDelegate with selected_index := 2 } ∧
    (setSelectedIndex sampleDelegate sampleWs 2).2 =
      setPane sampleWs 1
        { items := [20, 21], activeIndex := 1, activePermanent := false } := by
  have h := set_selected_index_previews_selected sampleDelegate sampleWs 2
    (by decide)
  refine ⟨h.1, ?_⟩
  exact (h.2 sampleMatch2 (by decide)).2.2 samplePaneB 1 (by decide) (by decide)

/-- C3 amended witness: the sample popup state. -/
theorem confirm_then_dismiss_restores_at_most_once_witness :
    (runOps [PopupOp.confirmOp, PopupOp.dismissOp]
      sampleDelegate sampleWs).2.2 ≤ 1 ∧
    (runOps [PopupOp.dismissOp, PopupOp.dismissOp]
      sampleDelegate sampleWs).2.2 = 2 :=
  confirm_then_dismiss_restores_at_most_once sampleDelegate sampleWs (by decide)

/-- C7: for every valid index into the current match list, `close_item_at`
removes exactly that one `TabMatch` (shifting all later indices down by one),
clamps `selected_index` into the new range, leaves the original-items record
alone, and closes the item in its owning pane when the pane is live and still
contains it; a stale pane reference is a silent no-op on the pane side while
the `TabMatch` is still removed from the list. -/
theorem close_item_at_removes_match_and_closes_in_pane
    (d : HarpoonDelegate) (ws : WorkspaceState) (ix : Nat)
    (hix : ix < d.«matches».length) :
    (closeItemAt d ws ix).1.«matches» = d.«matches».eraseIdx ix ∧
    (closeItemAt d ws ix).1.«matches».length = d.«matches».length - 1 ∧
    (∀ j, j < ix →
      (closeItemAt d ws ix).1.«matches»[j]? = d.«matches»[j]?) ∧
    (∀ j, ix ≤ j →
      (closeItemAt d ws ix).1.«matches»[j]? = d.«matches»[j + 1]?) ∧
    (closeItemAt d ws ix).1.selected_index =
      min d.selected_index ((d.«matches».eraseIdx ix).length - 1) ∧
    (closeItemAt d ws ix).1.original_items = d.original_items ∧
    ∀ m, d.«matches»[ix]? = some m →
      ((getPane ws m.pane = none → (closeItemAt d ws ix).2 = ws) ∧
       ∀ p i, getPane ws m.pane = some p → p.indexForItem m.item = some i →
          getPane (closeItemAt d ws ix).2 m.pane = some (p.closeItem i)) := by
  cases h : d.«matches»[ix]? with
  | none =>
    exact absurd (List.getElem?_eq_none_iff.mp h) (Nat.not_le.mpr hix)
  | some m0 =>
    have h1 : (closeItemAt d ws ix).1 =
        { d with «matches» := d.«matches».eraseIdx ix
                 selected_index :=
                   min d.selected_index ((d.«matches».eraseIdx ix).length - 1) } := by
      simp [closeItemAt, h]
    have hws : (closeItemAt d ws ix).2 =
        updatePane ws m0.pane (fun pane =>
          match pane.indexForItem m0.item with
          | some index => pane.closeItem index
          | none => pane) := by
      simp [closeItemAt, h]
    refine ⟨by rw [h1], ?_, ?_, ?_, by rw [h1], by rw [h1], ?_⟩
    · rw [h1]
      simp [List.length_eraseIdx, hix]
    · intro j hj
      rw [h1]
      exact List.getElem?_eraseIdx_of_lt _ _ _ hj
    · intro j hj
      rw [h1]
      exact List.getElem?_eraseIdx_of_ge _ _ _ hj
    · intro m hm
      injection hm with hm
      subst hm
      refine ⟨fun hstale => ?_, fun p i hp hi => ?_⟩
      · rw [hws, updatePane_stale _ hstale]
      · rw [hws]
        unfold updatePane
        rw [hp]
        simp only [hi]
        exact getPane_setPane_self hp

/-- C7 witness: closing the row of item 12 in the sample popup removes it
from the match list and from pane 0's tab strip. -/
theorem close_item_at_removes_match_and_closes_in_pane_witness :
    (closeItemAt sampleDelegate sampleWs 1).1.«matches» =
      [sampleMatch0, sampleMatch2] ∧
    (closeItemAt sampleDelegate sampleWs 1).1.selected_index = 1 ∧
    getPane (closeItemAt sampleDelegate sampleWs 1).2 0 =
      some { items := [10, 11], activeIndex := 0, activePermanent := true } := by
  have h := close_item_at_removes_match_and_closes_in_pane
    sampleDelegate sampleWs 1 (by decide)
  refine ⟨?_, ?_, ?_⟩
  · rw [h.1]
    decide
  · rw [h.2.2.2.2.1]
    decide
  · exact (h.2.2.2.2.2.2 sampleMatch1 (by decide)).2 samplePaneA 2
      (by decide) (by decide)

/-- The retained matches of the scoring pass, in baseline order: exactly the
candidates whose label gets an accepted score. -/
theorem map_tm_scoreFrom (fuzzy : String → String → Option Nat)
    (label : TabMatch → String) (query : String) (bl : List TabMatch) :
    ∀ n : Nat,
      ((bl.enumFrom n).filterMap (fun p =>
          (fuzzy (label p.2) query).map
            (fun s => ({ idx := p.1, score := s, tm := p.2 } : Scored)))).map
        Scored.tm =
      bl.filter (fun tm => (fuzzy (label tm) query).isSome) := by
  induction bl with
  | nil => intro n; rfl
  | cons hd tl ih =>
    intro n
    rw [List.enumFrom_cons, List.filterMap_cons, List.filter_cons]
    cases hf : fuzzy (label hd) query with
    | none => simpa [hf] using ih (n + 1)
    | some s => simpa [hf] using ih (n + 1)

theorem map_tm_scoreCandidates (fuzzy : String → String → Option Nat)
    (label : TabMatch → String) (query : String) (baseline : List TabMatch) :
    (scoreCandidates fuzzy label query baseline).map Scored.tm =
      baseline.filter (fun tm => (fuzzy (label tm) query).isSome) := by
  unfold scoreCandidates List.enum
  exact map_tm_scoreFrom fuzzy label query baseline 0

/-- Every retained candidate carries its accepted score and its own baseline
position. -/
theorem mem_scoreFrom (fuzzy : String → String → Option Nat)
    (label : TabMatch → String) (query : String) (bl : List TabMatch) :
    ∀ (n : Nat) (s : Scored),
      s ∈ (bl.enumFrom n).filterMap (fun p =>
          (fuzzy (label p.2) query).map
            (fun sc => ({ idx := p.1, score := sc, tm := p.2 } : Scored))) →
      fuzzy (label s.tm) query = some s.score ∧
        n ≤ s.idx ∧ bl[s.idx - n]? = some s.tm := by
  induction bl with
  | nil =>
    intro n s hs
    simp at hs
  | cons hd tl ih =>
    intro n s hs
    rw [List.enumFrom_cons, List.filterMap_cons] at hs
    cases hf : fuzzy (label hd) query with
    | none =>
      simp only [hf, Option.map_none'] at hs
      obtain ⟨h1, h2, h3⟩ := ih (n + 1) s hs
      refine ⟨h1, by omega, ?_⟩
      have hstep : s.idx - n = (s.idx - (n + 1)) + 1 := by omega
      rw [hstep, List.getElem?_cons_succ]
      exact h3
    | some sc =>
      simp only [hf, Option.map_some', List.mem_cons] at hs
      rcases hs with hs | hs
      · subst hs
        exact ⟨hf, Nat.le_refl _, by simp⟩
      · obtain ⟨h1, h2, h3⟩ := ih (n + 1) s hs
        refine ⟨h1, by omega, ?_⟩
        have hstep : s.idx - n = (s.idx - (n + 1)) + 1 := by omega
        rw [hstep, List.getElem?_cons_succ]
        exact h3

theorem mem_scoreCandidates (fuzzy : String → String → Option Nat)
    (label : TabMatch → String) (query : String) (baseline : List TabMatch)
    (s : Scored) (hs : s ∈ scoreCandidates fuzzy label query baseline) :
    fuzzy (label s.tm) query = some s.score ∧ baseline[s.idx]? = some s.tm := by
  unfold scoreCandidates List.enum at hs
  obtain ⟨h1, _, h3⟩ := mem_scoreFrom fuzzy label query baseline 0 s hs
  exact ⟨h1, by simpa using h3⟩

/-- C5: recomputation fully replaces the match list and resets
`selected_index` to 0; an empty query reuses the baseline snapshot ordering
verbatim without re-scoring; a non-empty query retains exactly the candidates
whose rendered label receives an accepted score from the fuzzy matcher
(each retained candidate keeping its accepted score and baseline position),
ordered by descending score with ties broken by the stable baseline order. -/
theorem update_matches_filters_sorts_and_resets_selection
    (fuzzy : String → String → Option Nat) (label : TabMatch → String)
    (baseline : List TabMatch) (query : String) (d : HarpoonDelegate) :
    (updateMatches fuzzy label baseline query d).selected_index = 0 ∧
    (query = "" →
      (updateMatches fuzzy label baseline query d).«matches» = baseline) ∧
    (query ≠ "" →
      (updateMatches fuzzy label baseline query d).«matches» =
        (List.insertionSort scoreOrder
          (scoreCandidates fuzzy label query baseline)).map Scored.tm ∧
      List.Perm (updateMatches fuzzy label baseline query d).«matches»
        (baseline.filter (fun tm => (fuzzy (label tm) query).isSome)) ∧
      (∀ s ∈ List.insertionSort scoreOrder
          (scoreCandidates fuzzy label query baseline),
        fuzzy (label s.tm) query = some s.score ∧
          baseline[s.idx]? = some s.tm) ∧
      List.Pairwise
        (fun a b => b.score ≤ a.score ∧ (a.score = b.score → a.idx ≤ b.idx))
        (List.insertionSort scoreOrder
          (scoreCandidates fuzzy label query baseline))) := by
  refine ⟨?_, fun hq => ?_, fun hq => ?_⟩
  · unfold updateMatches
    split <;> rfl
  · simp [updateMatches, hq]
  · have hmatch : (updateMatches fuzzy label baseline query d).«matches» =
        (List.insertionSort scoreOrder
          (scoreCandidates fuzzy label query baseline)).map Scored.tm := by
      simp [updateMatches, hq]
    refine ⟨hmatch, ?_, ?_, ?_⟩
    · have hp : List.Perm
          ((List.insertionSort scoreOrder
            (scoreCandidates fuzzy label query baseline)).map Scored.tm)
          ((scoreCandidates fuzzy label query baseline).map Scored.tm) :=
        (List.perm_insertionSort scoreOrder _).map Scored.tm
      rw [map_tm_scoreCandidates] at hp
      rw [hmatch]
      exact hp
    · intro s hs
      exact mem_scoreCandidates fuzzy label query baseline s
        ((List.perm_insertionSort scoreOrder _).mem_iff.mp hs)
    · have hsorted := List.sorted_insertionSort scoreOrder
        (scoreCandidates fuzzy label query baseline)
      refine List.Pairwise.imp ?_ hsorted
      intro a b hab
      unfold scoreOrder at hab
      exact ⟨by omega, fun he => by omega⟩

/-- C5 witness: the query "beta" retains exactly the sample row labelled
"beta" and resets the selection to 0. -/
theorem update_matches_filters_sorts_and_resets_selection_witness :
    (updateMatches sampleFuzzy sampleLabel
      [sampleMatch0, sampleMatch1, sampleMatch2] "beta"
      sampleDelegate).«matches» = [sampleMatch1] ∧
    (updateMatches sampleFuzzy sampleLabel
      [sampleMatch0, sampleMatch1, sampleMatch2] "beta"
      sampleDelegate).selected_index = 0 := by
  have h := update_matches_filters_sorts_and_resets_selection sampleFuzzy
    sampleLabel [sampleMatch0, sampleMatch1, sampleMatch2] "beta"
    sampleDelegate
  refine ⟨?_, h.1⟩
  rw [(h.2.2 (by decide)).1]
  decide

end Harpoon
